import Mathlib

/-!
A shallow embedding of `mkosi/installer/dnf.py` (class `Dnf`): the binary
resolver (`executable`, `subdir`), the repository configurator (`setup`),
the command builder (`cmd`), the sandboxed invoker's log cleanup (`invoke`),
and the sync orchestrator (`syncArguments`, `createrepo`).

External collaborators that the module imports (`mkosi.config.Config`,
`mkosi.installer.rpm.RpmRepository`, `mkosi.run.find_binary`, `Cacheonly`)
are not part of the given source tree; they are modelled from the spec's
interface contracts, as noted on each definition.
-/

namespace MkosiDnf

/-- Python `s.startswith(pre)`, as a character-list check (Lean's
`String.startsWith` is byte-based and does not reduce in the kernel). -/
def strStartsWith (s pre : String) : Bool :=
  pre.data.isPrefixOf s.data

/-- Python `s.endswith(post)`, as a character-list check. -/
def strEndsWith (s post : String) : Bool :=
  post.data.isSuffixOf s.data

/-- Split a character list on a separator character (the groups between
separators, in order; adjacent separators yield empty groups). -/
def splitOnChar (c : Char) : List Char → List (List Char)
  | [] => [[]]
  | a :: rest =>
    if a == c then [] :: splitOnChar c rest
    else
      match splitOnChar c rest with
      | [] => [[a]]
      | g :: gs => (a :: g) :: gs

/-- Python `pathlib.Path(p).name` on a POSIX path: the final path component,
with empty and `.` components stripped (so `Path("a/b/").name = "b"`,
`Path("/").name = ""`, `Path("").name = ""`). -/
def pathName (p : String) : String :=
  String.mk
    (((splitOnChar '/' p.data).filter (fun comp => comp != [] && comp != ['.'])).getLastD [])

/-- Modelled from the spec: the cache policy enum
`{always, metadataExpireNever, default}` read from the build configuration
(`mkosi.config.Cacheonly`; only the `always` value is tested by this module). -/
inductive Cacheonly where
  | always
  | metadataExpireNever
  | defaultPolicy
deriving DecidableEq

/-- Modelled from the spec: the read-only build-configuration view
(`mkosi.config.Config`) restricted to the accessors this module uses.
`environment` is the configured environment map; `tools` is the set of
binaries present on the tools search root, given as their full paths
(`mkosi.run.find_binary` searches it by basename).
`architectureIsNative` models `config.architecture.is_native()` and
`forcearchValue` models
`config.distribution.architecture(config.architecture)`. -/
structure Config where
  environment : List (String × String)
  tools : List String
  release : String
  repositories : List String
  cacheonly : Cacheonly
  with_recommends : Bool
  with_docs : Bool
  repository_key_check : Bool
  architectureIsNative : Bool
  forcearchValue : String
deriving DecidableEq

/-- Modelled from the spec: `findOnPath(name, root) -> path|absent`
(`mkosi.run.find_binary`): the first binary on the tools search root whose
basename is `name`, or absent. -/
def find_binary (name : String) (tools : List String) : Option String :=
  tools.find? (fun p => pathName p == name)

/-- `Config.environment.get(key)`: dictionary lookup, `None` when unset. -/
def envGet (config : Config) (key : String) : Option String :=
  (config.environment.find? (fun kv => kv.1 == key)).map (·.2)

/-- `Dnf.executable`: `Path(dnf or find_binary("dnf5", root=root) or
find_binary("dnf", root=root) or "yum").name`.  Python `or` takes the first
truthy operand: an unset or empty-string `MKOSI_DNF` is falsy and falls
through; a found path is always truthy. -/
def executable (config : Config) : String :=
  let dnf := envGet config "MKOSI_DNF"
  let fallback : String :=
    match find_binary "dnf5" config.tools with
    | some p => p
    | none =>
      match find_binary "dnf" config.tools with
      | some p => p
      | none => "yum"
  match dnf with
  | some s => if s = "" then pathName fallback else pathName s
  | none => pathName fallback

/-- `Dnf.subdir`: `Path("libdnf5" if cls.executable(config) == "dnf5" else "dnf")`. -/
def subdir (config : Config) : String :=
  if executable config = "dnf5" then "libdnf5" else "dnf"

/-- Modelled from the spec: a repository descriptor
(`mkosi.installer.rpm.RpmRepository`): `{id, url, enabled, gpg-check URLs,
optional ssl client-cert/key/ca paths, optional int priority}`.  The ssl
fields are optional paths (in Python any present path is truthy); `priority`
is an optional int (in Python both `None` and `0` are falsy). -/
structure RpmRepository where
  id : String
  url : String
  enabled : Bool
  gpgurls : List String
  sslcacert : Option String
  sslclientcert : Option String
  sslclientkey : Option String
  priority : Option Int
deriving DecidableEq

/-- One `gpgkey` output line (without the trailing newline), from the loop
`for i, url in enumerate(repo.gpgurls): f.write("gpgkey=" if i == 0 else
len("gpgkey=") * " "); f.write(f"{url}\n")`. -/
def gpgkeyLine (i : Nat) (url : String) : String :=
  (if i == 0 then "gpgkey=" else String.mk (List.replicate "gpgkey=".length ' ')) ++ url

/-- All `gpgkey` output lines of one stanza, in `enumerate` order. -/
def gpgkeyLineList (urls : List String) : List String :=
  urls.enum.map (fun iu => gpgkeyLine iu.1 iu.2)

/-- One `if repo.X: f.write(f"key={repo.X}\n")` block: the line is written
exactly when the optional path field is present (any present path is truthy
in Python). -/
def optLine (pre : String) (o : Option String) : List String :=
  match o with
  | some v => [pre ++ v]
  | none => []

/-- The `if repo.priority: f.write(f"priority={repo.priority}\n")` block:
with an optional int field, Python truthiness writes the line exactly when
the field is present with a nonzero value. -/
def priorityLineBlock (o : Option Int) : List String :=
  match o with
  | some p => if p ≠ 0 then ["priority=" ++ toString p] else []
  | none => []

/-- The lines of one repository stanza as written by `Dnf.setup`, in write
order: the dedented header block, the truthiness-gated ssl/priority lines,
the `gpgkey` lines, and the final blank separator line.  Each line is
terminated by `"\n"` in the file (see `repoStanza`). -/
def repoStanzaLines (repo : RpmRepository) : List String :=
  ["[" ++ repo.id ++ "]",
   "name=" ++ repo.id,
   repo.url,
   "gpgcheck=1",
   "enabled=" ++ (if repo.enabled then "1" else "0")]
  ++ optLine "sslcacert=" repo.sslcacert
  ++ optLine "sslclientcert=" repo.sslclientcert
  ++ optLine "sslclientkey=" repo.sslclientkey
  ++ priorityLineBlock repo.priority
  ++ gpgkeyLineList repo.gpgurls
  ++ [""]

/-- The bytes of one repository stanza: its lines each followed by `"\n"`. -/
def repoStanza (repo : RpmRepository) : String :=
  String.join ((repoStanzaLines repo).map (· ++ "\n"))

/-- The full content `Dnf.setup` writes into `etc/yum.repos.d/mkosi.repo`
when the file is absent: one stanza per descriptor, in input order. -/
def repoFileContent (repos : List RpmRepository) : String :=
  String.join (repos.map repoStanza)

/-- The content `Dnf.setup` writes into `etc/dnf/dnf.conf` when the file is
absent: a `[main]` filelists stanza for the next-gen variant when filelists
are requested, empty otherwise. -/
def dnfConfContent (config : Config) (filelists : Bool) : String :=
  if strEndsWith (executable config) "dnf5" && filelists then
    "[main]\noptional_metadata_types=filelists\n"
  else ""

/-- The files this module reads and writes under a build root's package
manager tree: `etc/dnf/dnf.conf`, `etc/yum.repos.d/mkosi.repo` and
`etc/yum.repos.d/mkosi-local.repo`.  `none` means the file does not exist;
`some s` means it exists with content `s`. -/
structure BuildRootState where
  dnfConf : Option String
  mkosiRepo : Option String
  mkosiLocalRepo : Option String
deriving DecidableEq

/-- `Dnf.setup(context, repositories, filelists)`: ensures the directories,
then writes `etc/dnf/dnf.conf` only if it does not exist, then writes
`etc/yum.repos.d/mkosi.repo` only if it does not exist. -/
def setup (st : BuildRootState) (config : Config) (repositories : List RpmRepository)
    (filelists : Bool) : BuildRootState :=
  let st1 :=
    if st.dnfConf.isSome then st
    else { st with dnfConf := some (dnfConfContent config filelists) }
  if st1.mkosiRepo.isSome then st1
  else { st1 with mkosiRepo := some (repoFileContent repositories) }

/-- The execution context of `Dnf` (`mkosi.context.Context`) restricted to
what `cmd` reads: the install root path, the build configuration, and the
process-wide debug flag `ARG_DEBUG` (modelled as an explicit field, per the
spec's note that the Command Builder is otherwise a pure function of its
inputs). -/
structure Context where
  root : String
  config : Config
  argDebug : Bool
deriving DecidableEq

/-- The unconditional head of `Dnf.cmd`: env wrapper, binary, and the fixed
flag block. -/
def cmdBase (ctx : Context) : List String :=
  let dnf := executable ctx.config
  ["env",
   "HOME=/",
   dnf,
   "--assumeyes",
   "--best",
   "--releasever=" ++ ctx.config.release,
   "--installroot=" ++ ctx.root,
   "--setopt=keepcache=1",
   "--setopt=logdir=/var/log",
   "--setopt=cachedir=/var/cache/" ++ subdir ctx.config,
   "--setopt=persistdir=/var/lib/" ++ subdir ctx.config,
   "--setopt=install_weak_deps=" ++ (if ctx.config.with_recommends then "1" else "0"),
   "--setopt=check_config_file_age=0",
   (if strEndsWith dnf "dnf5" then "--disable-plugin=*" else "--disableplugin=*"),
   (if strEndsWith dnf "dnf5" then "--enable-plugin=builddep" else "--enableplugin=builddep")]

/-- `if ARG_DEBUG.get(): cmdline += ["--setopt=debuglevel=10"]`. -/
def cmdDebug (ctx : Context) : List String :=
  if ctx.argDebug then ["--setopt=debuglevel=10"] else []

/-- `if not context.config.repository_key_check: cmdline += ["--nogpgcheck"]`. -/
def cmdGpgcheck (ctx : Context) : List String :=
  if ctx.config.repository_key_check then [] else ["--nogpgcheck"]

/-- `if context.config.repositories:` — one enable flag per configured
repository id; flag spelling depends on the variant. -/
def cmdRepositories (ctx : Context) : List String :=
  if ctx.config.repositories.isEmpty then []
  else
    ctx.config.repositories.map
      (fun repo =>
        ((if strEndsWith (executable ctx.config) "dnf5" then "--enable-repo" else "--enablerepo")
          ++ "=") ++ repo)

/-- The cache-policy block of `Dnf.cmd`: `--cacheonly` for
`Cacheonly.always`, else `--setopt=metadata_expire=never` plus, when the
resolved binary is exactly `dnf5`, `--setopt=cacheonly=metadata`. -/
def cmdCache (ctx : Context) : List String :=
  if ctx.config.cacheonly = Cacheonly.always then ["--cacheonly"]
  else
    ["--setopt=metadata_expire=never"]
    ++ (if executable ctx.config = "dnf5" then ["--setopt=cacheonly=metadata"] else [])

/-- `if not context.config.architecture.is_native(): cmdline += [f"--forcearch={...}"]`. -/
def cmdArch (ctx : Context) : List String :=
  if ctx.config.architectureIsNative then []
  else ["--forcearch=" ++ ctx.config.forcearchValue]

/-- `if not context.config.with_docs:` — docs-exclusion flag, variant spelling. -/
def cmdDocs (ctx : Context) : List String :=
  if ctx.config.with_docs then []
  else [if strEndsWith (executable ctx.config) "dnf5" then "--no-docs" else "--nodocs"]

/-- The variant trailer of `Dnf.cmd`: next-gen reuses the host config,
legacy pins explicit config/repo/vars paths. -/
def cmdTrailer (ctx : Context) : List String :=
  if strEndsWith (executable ctx.config) "dnf5" then ["--use-host-config"]
  else
    ["--config=/etc/dnf/dnf.conf",
     "--setopt=reposdir=/etc/yum.repos.d",
     "--setopt=varsdir=/etc/dnf/vars"]

/-- `Dnf.cmd(context)`: the invariant command vector, assembled in source
order from the blocks above. -/
def cmd (ctx : Context) : List String :=
  cmdBase ctx ++ cmdDebug ctx ++ cmdGpgcheck ctx ++ cmdRepositories ctx
    ++ cmdCache ctx ++ cmdArch ctx ++ cmdDocs ctx ++ cmdTrailer ctx

/-- Modelled from the spec: the completed-process result returned by the
external runner (`mkosi.types.CompletedProcess`), reduced to its exit
status. -/
structure CompletedProcess where
  returncode : Int
deriving DecidableEq

/-- The outcome of the sandboxed `run` call inside `Dnf.invoke`: either a
completed process, or a raised exception (which includes the runner's
non-zero-exit error).  The invoker propagates it unchanged. -/
def RunResult : Type := Except String CompletedProcess

/-- The `<root>/var/log` directory of the install root: `none` when the
directory does not exist, otherwise the names of its direct entries. -/
structure VarLog where
  entries : Option (List String)
deriving DecidableEq

/-- Whether an entry name starts with one of the log prefixes
`("dnf", "hawkey", "yum")` that `Dnf.invoke` deletes. -/
def isDnfLogName (p : String) : Bool :=
  strStartsWith p "dnf" || strStartsWith p "hawkey" || strStartsWith p "yum"

/-- The `finally` block of `Dnf.invoke`: if `<root>/var/log` exists, unlink
every direct entry whose name starts with a known log prefix; if it does
not exist, do nothing. -/
def cleanupLogs (log : VarLog) : VarLog :=
  match log.entries with
  | none => ⟨none⟩
  | some es => ⟨some (es.filter (fun p => !isDnfLogName p))⟩

/-- `Dnf.invoke`: runs the composed command under the sandbox (the run
itself is external; its outcome is the `res` argument) inside a
`try`/`finally` whose `finally` block always performs the log cleanup —
on normal return, non-zero exit, and raised exception alike — and then
propagates the run's outcome unchanged. -/
def invoke (res : RunResult) (log : VarLog) : RunResult × VarLog :=
  (res, cleanupLogs log)

/-- The argument vector `Dnf.sync` passes to `invoke` after the
`makecache` verb: a forced refresh, a cache-only override to `none` for
the next-gen binary, then the caller's extra options. -/
def syncArguments (config : Config) (options : List String) : List String :=
  ["--refresh"]
  ++ (if executable config = "dnf5" then ["--setopt=cacheonly=none"] else [])
  ++ options

/-- The fixed local-repository stanza `Dnf.createrepo` writes (via
`write_text`, unconditionally) into `etc/yum.repos.d/mkosi-local.repo`. -/
def localRepoContent : String :=
  "[mkosi]\nname=mkosi\nbaseurl=file:///work/packages\ngpgcheck=0\nmetadata_expire=never\npriority=50\n"

/-- `Dnf.createrepo`: after running the external `createrepo_c` indexer,
overwrite `mkosi-local.repo` with the fixed stanza and call `sync` with
`options=["--disablerepo=*", "--enablerepo=mkosi"]`.  The result pairs the
new build-root state with the argument vector of that sync invocation. -/
def createrepo (config : Config) (st : BuildRootState) : BuildRootState × List String :=
  ({ st with mkosiLocalRepo := some localRepoContent },
   syncArguments config ["--disablerepo=*", "--enablerepo=mkosi"])

/-- Whether some line of the stanza written for `repo` begins with `key`. -/
def stanzaHasKeyLine (key : String) (repo : RpmRepository) : Bool :=
  (repoStanzaLines repo).any (fun l => strStartsWith l key)

/-- The search part of the resolution algorithm as the spec words it:
next-gen name if found on the tools search root, else legacy name if found
there, else the ultra-legacy name with no existence check. -/
def executableSearchSpec (config : Config) : String :=
  if (find_binary "dnf5" config.tools).isSome then "dnf5"
  else if (find_binary "dnf" config.tools).isSome then "dnf"
  else "yum"

/-- The resolution exactly as the claim words it: the override's basename
whenever `MKOSI_DNF` is set (to anything), else the search result.
Spec-side definition, to be compared with `executable`. -/
def executableClaimedResolution (config : Config) : String :=
  match envGet config "MKOSI_DNF" with
  | some d => pathName d
  | none => executableSearchSpec config

/-- The resolution with the claim's override clause amended to Python
truthiness: the override applies only when set to a non-empty string.
Spec-side definition, to be compared with `executable`. -/
def executableAmendedResolution (config : Config) : String :=
  match envGet config "MKOSI_DNF" with
  | some d => if d = "" then executableSearchSpec config else pathName d
  | none => executableSearchSpec config

/-- A concrete invocation context used by the witnesses. -/
def sampleContext (config : Config) : Context :=
  { root := "/buildroot", config := config, argDebug := false }

/-- A concrete build configuration used by the witnesses: a tools root
carrying `dnf5`, no override, default cache policy. -/
def sampleConfig : Config :=
  { environment := []
    tools := ["/usr/bin/dnf5"]
    release := "40"
    repositories := []
    cacheonly := Cacheonly.defaultPolicy
    with_recommends := true
    with_docs := true
    repository_key_check := true
    architectureIsNative := true
    forcearchValue := "x86_64" }

/-- The minimal repository descriptor of the spec's scenario: id `base`,
raw url line, enabled, one gpg url, no ssl fields, no priority. -/
def minimalRepo : RpmRepository :=
  { id := "base"
    url := "baseurl=file:///repo"
    enabled := true
    gpgurls := ["file:///key"]
    sslcacert := none
    sslclientcert := none
    sslclientkey := none
    priority := none }

/-- A configuration whose `MKOSI_DNF` override is set to the empty string
while `dnf5` is present on the tools root. -/
def emptyOverrideConfig : Config :=
  { sampleConfig with environment := [("MKOSI_DNF", "")] }

/-- The minimal descriptor carrying `priority := some 0`: the field is
present, but Python truthiness treats `0` as absent. -/
def priorityZeroRepo : RpmRepository :=
  { minimalRepo with priority := some 0 }

/-- A descriptor with every optional field present (nonzero priority),
used by the witnesses. -/
def fullRepo : RpmRepository :=
  { id := "full"
    url := "baseurl=file:///full"
    enabled := false
    gpgurls := ["file:///k1", "file:///k2"]
    sslcacert := some "/etc/pki/ca.pem"
    sslclientcert := some "/etc/pki/cert.pem"
    sslclientkey := some "/etc/pki/key.pem"
    priority := some 10 }

/-! ## Helper lemmas -/

/-- A string with a given concrete head part cannot equal a string whose
character list disagrees with that head part. -/
theorem append_ne_of_take_ne (p s t : String)
    (h : t.data.take p.data.length ≠ p.data) : p ++ s ≠ t := by
  intro he
  apply h
  rw [← he, String.data_append, List.take_left]

/-- `setup` on a build root where both config files already exist changes
nothing. -/
theorem setup_preserves_existing (st : BuildRootState) (c : Config)
    (r : List RpmRepository) (f : Bool)
    (h1 : st.dnfConf.isSome = true) (h2 : st.mkosiRepo.isSome = true) :
    setup st c r f = st := by
  unfold setup
  simp [h1, h2]

/-- After any `setup` call, both config files exist. -/
theorem setup_creates_both (st : BuildRootState) (c : Config)
    (r : List RpmRepository) (f : Bool) :
    (setup st c r f).dnfConf.isSome = true ∧ (setup st c r f).mkosiRepo.isSome = true := by
  unfold setup
  by_cases h1 : st.dnfConf.isSome <;> by_cases h2 : st.mkosiRepo.isSome <;> simp_all

/-! ## Claim theorems -/

/-- C1: a second `setup` call on the same build root leaves both the main
config file (`etc/dnf/dnf.conf`) and the repository-list file
(`etc/yum.repos.d/mkosi.repo`) exactly as the first call left them, for
every second configuration, repositories argument and filelists flag. -/
theorem setup_second_call_is_frame (st : BuildRootState) (c1 c2 : Config)
    (r1 r2 : List RpmRepository) (f1 f2 : Bool) :
    (setup (setup st c1 r1 f1) c2 r2 f2).dnfConf = (setup st c1 r1 f1).dnfConf ∧
    (setup (setup st c1 r1 f1) c2 r2 f2).mkosiRepo = (setup st c1 r1 f1).mkosiRepo := by
  rw [setup_preserves_existing _ c2 r2 f2 (setup_creates_both st c1 r1 f1).1
    (setup_creates_both st c1 r1 f1).2]
  exact ⟨rfl, rfl⟩

/-- C4: on a fresh build root, `setup` with the single minimal descriptor
`{id := "base", url := "baseurl=file:///repo", enabled := true,
gpgurls := ["file:///key"]}` writes exactly the expected stanza bytes into
the repository-list file. -/
theorem setup_minimal_scenario :
    (setup ⟨none, none, none⟩ sampleConfig [minimalRepo] true).mkosiRepo =
      some "[base]\nname=base\nbaseurl=file:///repo\ngpgcheck=1\nenabled=1\ngpgkey=file:///key\n\n" := by
  decide

/-- C6: after every `invoke` — normal return, non-zero exit, or raised
exception alike — no direct entry of `<root>/var/log` whose name starts
with `dnf`, `hawkey` or `yum` remains; a missing `var/log` directory is a
no-op rather than an error; and the run's outcome is propagated unchanged. -/
theorem invoke_always_cleans_logs (res : RunResult) (log : VarLog) :
    (∀ es p, (invoke res log).2.entries = some es → p ∈ es → isDnfLogName p = false) ∧
    ((invoke res log).2.entries = none ↔ log.entries = none) ∧
    (invoke res log).1 = res := by
  refine ⟨?_, ?_, rfl⟩
  · intro es p hes hp
    unfold invoke cleanupLogs at hes
    cases hl : log.entries with
    | none => rw [hl] at hes; cases hes
    | some es0 =>
      rw [hl] at hes
      injection hes with hes
      rw [← hes] at hp
      have := List.of_mem_filter hp
      simpa using this
  · unfold invoke cleanupLogs
    cases hl : log.entries <;> simp [hl]

/-- Witness for C6 at a concrete raised-exception invocation: the surviving
entry is not a package-manager log. -/
theorem invoke_always_cleans_logs_witness : isDnfLogName "kept.log" = false :=
  (invoke_always_cleans_logs (Except.error "boom") ⟨some ["dnf.log", "hawkey-x", "kept.log"]⟩).1
    ["kept.log"] "kept.log" (by decide) (by decide)

/-- C7: `createrepo` overwrites `etc/yum.repos.d/mkosi-local.repo` with the
fixed stanza whatever the prior state held, and the sync it triggers is
passed both the disable-all and the enable-`mkosi` options. -/
theorem createrepo_overwrites_local_repo (c : Config) (st : BuildRootState) :
    (createrepo c st).1.mkosiLocalRepo = some localRepoContent ∧
    localRepoContent =
      "[mkosi]\nname=mkosi\nbaseurl=file:///work/packages\ngpgcheck=0\nmetadata_expire=never\npriority=50\n" ∧
    "--disablerepo=*" ∈ (createrepo c st).2 ∧
    "--enablerepo=mkosi" ∈ (createrepo c st).2 := by
  refine ⟨rfl, rfl, ?_, ?_⟩ <;>
    by_cases hd : executable c = "dnf5" <;>
    simp [createrepo, syncArguments, hd]

/-- C8: `subdir` always yields one of the two fixed directory names, the
two names differ, and the result is stable: any configuration resolving to
the same executable yields the same directory name. -/
theorem subdir_two_values_stable (c c' : Config) (h : executable c' = executable c) :
    (subdir c = "libdnf5" ∨ subdir c = "dnf") ∧ ("libdnf5" : String) ≠ "dnf" ∧
    subdir c' = subdir c := by
  refine ⟨?_, by decide, by unfold subdir; rw [h]⟩
  unfold subdir
  by_cases hd : executable c = "dnf5" <;> simp [hd]

/-- Witness for C8 at the sample configuration. -/
theorem subdir_two_values_stable_witness :
    (subdir sampleConfig = "libdnf5" ∨ subdir sampleConfig = "dnf") ∧
    ("libdnf5" : String) ≠ "dnf" ∧ subdir sampleConfig = subdir sampleConfig :=
  subdir_two_values_stable sampleConfig sampleConfig rfl

/-- C10: `setup` with an empty repositories list still creates the
repository-list file, as a zero-stanza empty file, and every subsequent
`setup` on the same build root leaves it empty whatever its argument. -/
theorem setup_empty_repositories_sticky (st : BuildRootState) (c c' : Config)
    (r' : List RpmRepository) (f f' : Bool) (h : st.mkosiRepo = none) :
    (setup st c [] f).mkosiRepo = some "" ∧
    (setup (setup st c [] f) c' r' f').mkosiRepo = some "" := by
  have h1 : (setup st c [] f).mkosiRepo = some (repoFileContent []) := by
    unfold setup
    by_cases hd : st.dnfConf.isSome <;> simp [hd, h]
  have h2 : repoFileContent [] = "" := rfl
  refine ⟨by rw [h1, h2], ?_⟩
  rw [setup_preserves_existing _ c' r' f' (setup_creates_both st c [] f).1
    (setup_creates_both st c [] f).2, h1, h2]

/-- Witness for C10 on a fresh build root, with a nonempty second call. -/
theorem setup_empty_repositories_sticky_witness :
    (setup ⟨none, none, none⟩ sampleConfig [] true).mkosiRepo = some "" ∧
    (setup (setup ⟨none, none, none⟩ sampleConfig [] true) sampleConfig [minimalRepo] true).mkosiRepo
      = some "" :=
  setup_empty_repositories_sticky ⟨none, none, none⟩ sampleConfig sampleConfig [minimalRepo]
    true true rfl

/-- The basename of whatever the search chain of `executable` yields is
exactly the spec's search result: the searched-for name, or `yum`. -/
theorem pathName_search_chain (config : Config) :
    pathName
      (match find_binary "dnf5" config.tools with
       | some p => p
       | none =>
         match find_binary "dnf" config.tools with
         | some p => p
         | none => "yum") = executableSearchSpec config := by
  unfold executableSearchSpec
  cases h5 : find_binary "dnf5" config.tools with
  | some p5 =>
    simp only [h5, Option.isSome_some, if_true]
    unfold find_binary at h5
    have hb := List.find?_some h5
    exact eq_of_beq hb
  | none =>
    cases h4 : find_binary "dnf" config.tools with
    | some p4 =>
      simp only [h5, h4, Option.isSome_some, Option.isSome_none, if_true, Bool.false_eq_true,
        if_false]
      unfold find_binary at h4
      have hb := List.find?_some h4
      exact eq_of_beq hb
    | none =>
      simp only [h5, h4, Option.isSome_none, Bool.false_eq_true, if_false]
      decide

/-- C2 fails as stated: with `MKOSI_DNF` set to the empty string and `dnf5`
present on the tools root, the claimed result is the override's basename
(the empty string) but the code falls through to the search and returns
`dnf5` — Python `or` treats an empty-string override as unset. -/
theorem executable_override_counterexample :
    executable emptyOverrideConfig ≠ executableClaimedResolution emptyOverrideConfig := by
  decide

/-- C2 (amended): `executable` returns, as a basename, the first of: the
`MKOSI_DNF` override when set to a non-empty string; else `dnf5` when found
on the tools root; else `dnf` when found there; else `yum` with no
existence check. -/
theorem executable_resolution_order (config : Config) :
    executable config = executableAmendedResolution config := by
  unfold executable executableAmendedResolution
  cases he : envGet config "MKOSI_DNF" with
  | none => simpa using pathName_search_chain config
  | some d =>
    by_cases hd : d = ""
    · simp only [hd, if_pos rfl]
      simpa using pathName_search_chain config
    · simp only [if_neg hd]

/-- All gpg lines after the first carry the 7-space continuation indent:
`enumerate` indices from a positive start are never `0`. -/
theorem gpgkeyLineList_tail (n : Nat) (us : List String) (hn : n ≠ 0) :
    (us.enumFrom n).map (fun iu => gpgkeyLine iu.1 iu.2)
      = us.map (fun v => "       " ++ v) := by
  induction us generalizing n with
  | nil => simp
  | cons v vs ih =>
    rw [List.enumFrom_cons, List.map_cons, List.map_cons, ih (n + 1) (Nat.succ_ne_zero n)]
    have hb : (n == 0) = false := by simp [hn]
    unfold gpgkeyLine
    rw [hb, if_neg (by simp)]
    have hsp : String.mk (List.replicate "gpgkey=".length ' ') = "       " := by decide
    rw [hsp]

/-- C3: for a descriptor with gpg URLs `u :: us`, the stanza's gpgkey block
has exactly one line per URL: the first is `gpgkey=` followed by the first
URL, and every further line is exactly `len("gpgkey=") = 7` spaces followed
by its URL. -/
theorem gpgkey_block_shape (u : String) (us : List String) :
    gpgkeyLineList (u :: us) = ("gpgkey=" ++ u) :: us.map (fun v => "       " ++ v) ∧
    (gpgkeyLineList (u :: us)).length = us.length + 1 ∧
    ("gpgkey=" : String).length = 7 ∧
    ("       " : String).data = List.replicate ("gpgkey=" : String).length ' ' ∧
    ∀ r : RpmRepository, ∃ before,
      repoStanzaLines r = before ++ (gpgkeyLineList r.gpgurls ++ [""]) := by
  have hmain : gpgkeyLineList (u :: us)
      = ("gpgkey=" ++ u) :: us.map (fun v => "       " ++ v) := by
    unfold gpgkeyLineList
    rw [List.enum_cons, List.map_cons, gpgkeyLineList_tail 1 us (by decide)]
    rfl
  refine ⟨hmain, by rw [hmain]; simp, by decide, by decide, ?_⟩
  intro r
  refine ⟨["[" ++ r.id ++ "]", "name=" ++ r.id, r.url, "gpgcheck=1",
    "enabled=" ++ (if r.enabled then "1" else "0")]
    ++ optLine "sslcacert=" r.sslcacert
    ++ optLine "sslclientcert=" r.sslclientcert
    ++ optLine "sslclientkey=" r.sslclientkey
    ++ priorityLineBlock r.priority, ?_⟩
  unfold repoStanzaLines
  simp [List.append_assoc]

/-- Prefix test against an appended list, when the candidate is no longer
than the head part: the tail is irrelevant. -/
theorem isPrefixOf_append_of_le (k c s : List Char) (h : k.length ≤ c.length) :
    k.isPrefixOf (c ++ s) = k.isPrefixOf c := by
  by_cases hp : k <+: c
  · rw [List.isPrefixOf_iff_prefix.mpr hp,
      List.isPrefixOf_iff_prefix.mpr (hp.trans (List.prefix_append c s))]
  · have hq : ¬ k <+: c ++ s := fun hx =>
      hp (List.prefix_of_prefix_length_le hx (List.prefix_append c s) h)
    have e1 : k.isPrefixOf (c ++ s) = false := by
      rw [Bool.eq_false_iff]
      intro ht
      exact hq (List.isPrefixOf_iff_prefix.mp ht)
    have e2 : k.isPrefixOf c = false := by
      rw [Bool.eq_false_iff]
      intro ht
      exact hp (List.isPrefixOf_iff_prefix.mp ht)
    rw [e1, e2]

/-- A candidate strictly longer than the head part can only be a prefix of
the appended list if the head part is a prefix of the candidate. -/
theorem isPrefixOf_append_false_of_lt (k c s : List Char) (hlen : c.length < k.length)
    (h : c.isPrefixOf k = false) : k.isPrefixOf (c ++ s) = false := by
  rw [Bool.eq_false_iff]
  intro ht
  have hk : k <+: c ++ s := List.isPrefixOf_iff_prefix.mp ht
  have hc : c <+: k :=
    List.prefix_of_prefix_length_le (List.prefix_append c s) hk (Nat.le_of_lt hlen)
  rw [List.isPrefixOf_iff_prefix.mpr hc] at h
  cases h

/-- String form of `isPrefixOf_append_of_le`. -/
theorem strStartsWith_append_of_le (c s key : String) (h : key.data.length ≤ c.data.length) :
    strStartsWith (c ++ s) key = strStartsWith c key := by
  unfold strStartsWith
  rw [String.data_append]
  exact isPrefixOf_append_of_le _ _ _ h

/-- String form of `isPrefixOf_append_false_of_lt`. -/
theorem strStartsWith_append_false_of_lt (c s key : String)
    (hlen : c.data.length < key.data.length) (h : strStartsWith key c = false) :
    strStartsWith (c ++ s) key = false := by
  unfold strStartsWith
  rw [String.data_append]
  exact isPrefixOf_append_false_of_lt _ _ _ hlen h

/-- Every string starts with itself. -/
theorem strStartsWith_self (s : String) : strStartsWith s s = true :=
  List.isPrefixOf_iff_prefix.mpr (List.prefix_refl s.data)

/-- String append is associative. -/
theorem strAppend_assoc (a b c : String) : (a ++ b) ++ c = a ++ (b ++ c) := by
  apply String.ext
  rw [String.data_append, String.data_append, String.data_append, String.data_append,
    List.append_assoc]

/-- An optional-field block holds no line beginning with `key` when no line
it could write begins with `key`. -/
theorem any_optLine_false (key pre : String) (o : Option String)
    (h : ∀ v, strStartsWith (pre ++ v) key = false) :
    (optLine pre o).any (fun l => strStartsWith l key) = false := by
  cases o with
  | none => rfl
  | some v => simp [optLine, h v]

/-- An optional-field block holds a line beginning with its own key exactly
when the field is present. -/
theorem any_optLine_self (pre : String) (o : Option String) :
    (optLine pre o).any (fun l => strStartsWith l pre) = o.isSome := by
  cases o with
  | none => rfl
  | some v =>
    simp only [optLine, List.any_cons, List.any_nil, Bool.or_false, Option.isSome_some]
    rw [strStartsWith_append_of_le _ _ _ (Nat.le_refl _)]
    exact strStartsWith_self pre

/-- The priority block holds no line beginning with `key` when no priority
line begins with `key`. -/
theorem any_priorityBlock_false (key : String) (o : Option Int)
    (h : ∀ p : Int, strStartsWith ("priority=" ++ toString p) key = false) :
    (priorityLineBlock o).any (fun l => strStartsWith l key) = false := by
  cases o with
  | none => rfl
  | some p =>
    by_cases hp : p ≠ 0 <;> simp [priorityLineBlock, hp, h p]

/-- The priority block holds a `priority=` line exactly when the field is
present with a nonzero value. -/
theorem any_priorityBlock_self (o : Option Int) :
    (priorityLineBlock o).any (fun l => strStartsWith l "priority=")
      = o.elim false (fun p => p != 0) := by
  cases o with
  | none => rfl
  | some p =>
    by_cases hp : p ≠ 0
    · simp only [priorityLineBlock, if_pos hp, List.any_cons, List.any_nil, Bool.or_false,
        Option.elim_some]
      rw [strStartsWith_append_of_le _ _ _ (Nat.le_refl _), strStartsWith_self]
      simp [bne, hp]
    · rw [not_ne_iff] at hp
      subst hp
      rfl

/-- The gpgkey block holds no line beginning with a key that is longer than
the 7-character line heads and is headed by neither of them. -/
theorem any_gpgkeyBlock_false (key : String) (urls : List String)
    (h1 : strStartsWith key "gpgkey=" = false)
    (h2 : strStartsWith key "       " = false)
    (hlen : 7 < key.data.length) :
    (gpgkeyLineList urls).any (fun l => strStartsWith l key) = false := by
  rw [List.any_eq_false]
  intro l hl
  unfold gpgkeyLineList at hl
  rw [List.mem_map] at hl
  obtain ⟨iu, _, rfl⟩ := hl
  unfold gpgkeyLine
  by_cases hi : (iu.1 == 0) = true
  · rw [if_pos hi]
    simp only [Bool.not_eq_true]
    exact strStartsWith_append_false_of_lt _ _ _ (by simpa using hlen) h1
  · rw [if_neg hi]
    simp only [Bool.not_eq_true]
    have hsp : String.mk (List.replicate "gpgkey=".length ' ') = "       " := by decide
    rw [hsp]
    exact strStartsWith_append_false_of_lt _ _ _ (by simpa using hlen) h2

/-- C9 fails as stated: a descriptor carrying the priority value `0` — the
field is present — produces a stanza with no `priority=` line, because the
source gates the write on Python truthiness (`if repo.priority:`). -/
theorem priority_zero_line_counterexample :
    priorityZeroRepo.priority = some 0 ∧
    stanzaHasKeyLine "priority=" priorityZeroRepo = false := by
  decide

/-- C9 (amended): in each stanza the `sslcacert=`, `sslclientcert=` and
`sslclientkey=` lines are emitted if and only if the corresponding field is
present, and the `priority=` line if and only if the priority field is
present with a nonzero value (Python truthiness treats priority `0` as
absent); stated for descriptors whose raw url line does not itself begin
with one of these keys. -/
theorem ssl_priority_line_conditions (r : RpmRepository)
    (hu1 : strStartsWith r.url "sslcacert=" = false)
    (hu2 : strStartsWith r.url "sslclientcert=" = false)
    (hu3 : strStartsWith r.url "sslclientkey=" = false)
    (hu4 : strStartsWith r.url "priority=" = false) :
    stanzaHasKeyLine "sslcacert=" r = r.sslcacert.isSome ∧
    stanzaHasKeyLine "sslclientcert=" r = r.sslclientcert.isSome ∧
    stanzaHasKeyLine "sslclientkey=" r = r.sslclientkey.isSome ∧
    stanzaHasKeyLine "priority=" r = r.priority.elim false (fun p => p != 0) := by
  refine ⟨?_, ?_, ?_, ?_⟩
  · unfold stanzaHasKeyLine repoStanzaLines
    simp only [List.any_append, List.any_cons, List.any_nil]
    rw [strAppend_assoc "[" r.id "]"]
    rw [strStartsWith_append_false_of_lt "[" (r.id ++ "]") "sslcacert=" (by decide) (by decide)]
    rw [strStartsWith_append_false_of_lt "name=" r.id "sslcacert=" (by decide) (by decide)]
    rw [hu1]
    rw [show strStartsWith "gpgcheck=1" "sslcacert=" = false from by decide]
    rw [strStartsWith_append_false_of_lt "enabled=" (if r.enabled then "1" else "0") "sslcacert="
      (by decide) (by decide)]
    rw [any_optLine_self "sslcacert=" r.sslcacert]
    rw [any_optLine_false "sslcacert=" "sslclientcert=" r.sslclientcert
      (fun v => by
        rw [strStartsWith_append_of_le "sslclientcert=" v "sslcacert=" (by decide)]
        decide)]
    rw [any_optLine_false "sslcacert=" "sslclientkey=" r.sslclientkey
      (fun v => by
        rw [strStartsWith_append_of_le "sslclientkey=" v "sslcacert=" (by decide)]
        decide)]
    rw [any_priorityBlock_false "sslcacert=" r.priority
      (fun p => strStartsWith_append_false_of_lt "priority=" (toString p) "sslcacert="
        (by decide) (by decide))]
    rw [any_gpgkeyBlock_false "sslcacert=" r.gpgurls (by decide) (by decide) (by decide)]
    rw [show strStartsWith "" "sslcacert=" = false from by decide]
    simp
  · unfold stanzaHasKeyLine repoStanzaLines
    simp only [List.any_append, List.any_cons, List.any_nil]
    rw [strAppend_assoc "[" r.id "]"]
    rw [strStartsWith_append_false_of_lt "[" (r.id ++ "]") "sslclientcert=" (by decide) (by decide)]
    rw [strStartsWith_append_false_of_lt "name=" r.id "sslclientcert=" (by decide) (by decide)]
    rw [hu2]
    rw [show strStartsWith "gpgcheck=1" "sslclientcert=" = false from by decide]
    rw [strStartsWith_append_false_of_lt "enabled=" (if r.enabled then "1" else "0")
      "sslclientcert=" (by decide) (by decide)]
    rw [any_optLine_false "sslclientcert=" "sslcacert=" r.sslcacert
      (fun v => strStartsWith_append_false_of_lt "sslcacert=" v "sslclientcert="
        (by decide) (by decide))]
    rw [any_optLine_self "sslclientcert=" r.sslclientcert]
    rw [any_optLine_false "sslclientcert=" "sslclientkey=" r.sslclientkey
      (fun v => strStartsWith_append_false_of_lt "sslclientkey=" v "sslclientcert="
        (by decide) (by decide))]
    rw [any_priorityBlock_false "sslclientcert=" r.priority
      (fun p => strStartsWith_append_false_of_lt "priority=" (toString p) "sslclientcert="
        (by decide) (by decide))]
    rw [any_gpgkeyBlock_false "sslclientcert=" r.gpgurls (by decide) (by decide) (by decide)]
    rw [show strStartsWith "" "sslclientcert=" = false from by decide]
    simp
  · unfold stanzaHasKeyLine repoStanzaLines
    simp only [List.any_append, List.any_cons, List.any_nil]
    rw [strAppend_assoc "[" r.id "]"]
    rw [strStartsWith_append_false_of_lt "[" (r.id ++ "]") "sslclientkey=" (by decide) (by decide)]
    rw [strStartsWith_append_false_of_lt "name=" r.id "sslclientkey=" (by decide) (by decide)]
    rw [hu3]
    rw [show strStartsWith "gpgcheck=1" "sslclientkey=" = false from by decide]
    rw [strStartsWith_append_false_of_lt "enabled=" (if r.enabled then "1" else "0")
      "sslclientkey=" (by decide) (by decide)]
    rw [any_optLine_false "sslclientkey=" "sslcacert=" r.sslcacert
      (fun v => strStartsWith_append_false_of_lt "sslcacert=" v "sslclientkey="
        (by decide) (by decide))]
    rw [any_optLine_false "sslclientkey=" "sslclientcert=" r.sslclientcert
      (fun v => by
        rw [strStartsWith_append_of_le "sslclientcert=" v "sslclientkey=" (by decide)]
        decide)]
    rw [any_optLine_self "sslclientkey=" r.sslclientkey]
    rw [any_priorityBlock_false "sslclientkey=" r.priority
      (fun p => strStartsWith_append_false_of_lt "priority=" (toString p) "sslclientkey="
        (by decide) (by decide))]
    rw [any_gpgkeyBlock_false "sslclientkey=" r.gpgurls (by decide) (by decide) (by decide)]
    rw [show strStartsWith "" "sslclientkey=" = false from by decide]
    simp
  · unfold stanzaHasKeyLine repoStanzaLines
    simp only [List.any_append, List.any_cons, List.any_nil]
    rw [strAppend_assoc "[" r.id "]"]
    rw [strStartsWith_append_false_of_lt "[" (r.id ++ "]") "priority=" (by decide) (by decide)]
    rw [strStartsWith_append_false_of_lt "name=" r.id "priority=" (by decide) (by decide)]
    rw [hu4]
    rw [show strStartsWith "gpgcheck=1" "priority=" = false from by decide]
    rw [strStartsWith_append_false_of_lt "enabled=" (if r.enabled then "1" else "0")
      "priority=" (by decide) (by decide)]
    rw [any_optLine_false "priority=" "sslcacert=" r.sslcacert
      (fun v => by
        rw [strStartsWith_append_of_le "sslcacert=" v "priority=" (by decide)]
        decide)]
    rw [any_optLine_false "priority=" "sslclientcert=" r.sslclientcert
      (fun v => by
        rw [strStartsWith_append_of_le "sslclientcert=" v "priority=" (by decide)]
        decide)]
    rw [any_optLine_false "priority=" "sslclientkey=" r.sslclientkey
      (fun v => by
        rw [strStartsWith_append_of_le "sslclientkey=" v "priority=" (by decide)]
        decide)]
    rw [any_priorityBlock_self r.priority]
    rw [any_gpgkeyBlock_false "priority=" r.gpgurls (by decide) (by decide) (by decide)]
    rw [show strStartsWith "" "priority=" = false from by decide]
    simp

/-- Witness for C9 (amended) at a descriptor with every optional field
present and a nonzero priority. -/
theorem ssl_priority_line_conditions_witness :
    stanzaHasKeyLine "sslcacert=" fullRepo = fullRepo.sslcacert.isSome ∧
    stanzaHasKeyLine "sslclientcert=" fullRepo = fullRepo.sslclientcert.isSome ∧
    stanzaHasKeyLine "sslclientkey=" fullRepo = fullRepo.sslclientkey.isSome ∧
    stanzaHasKeyLine "priority=" fullRepo = fullRepo.priority.elim false (fun p => p != 0) :=
  ssl_priority_line_conditions fullRepo (by decide) (by decide) (by decide) (by decide)

/-- No token of the fixed head block of `cmd` is one of the two
cache-policy flags, provided the resolved binary name does not begin with
a dash. -/
theorem cmdBase_no_cache_flags (ctx : Context)
    (hdnf : strStartsWith (executable ctx.config) "-" = false)
    (x : String) (hx : x ∈ cmdBase ctx) :
    x ≠ "--cacheonly" ∧ x ≠ "--setopt=metadata_expire=never" := by
  unfold cmdBase at hx
  simp only [List.mem_cons, List.not_mem_nil, or_false] at hx
  rcases hx with rfl | rfl | rfl | rfl | rfl | rfl | rfl | rfl | rfl | rfl | rfl | rfl | rfl
    | rfl | rfl | rfl
  all_goals first
    | exact ⟨by decide, by decide⟩
    | exact ⟨append_ne_of_take_ne _ _ _ (by decide), append_ne_of_take_ne _ _ _ (by decide)⟩
    | (refine ⟨fun he => ?_, fun he => ?_⟩ <;> (rw [he] at hdnf; exact absurd hdnf (by decide)))
    | (constructor <;> (split <;> decide))

/-- The debug block never holds a cache-policy flag. -/
theorem cmdDebug_no_cache_flags (ctx : Context) (x : String) (hx : x ∈ cmdDebug ctx) :
    x ≠ "--cacheonly" ∧ x ≠ "--setopt=metadata_expire=never" := by
  unfold cmdDebug at hx
  split at hx
  · simp only [List.mem_singleton] at hx
    subst hx
    exact ⟨by decide, by decide⟩
  · cases hx

/-- The gpg-check block never holds a cache-policy flag. -/
theorem cmdGpgcheck_no_cache_flags (ctx : Context) (x : String) (hx : x ∈ cmdGpgcheck ctx) :
    x ≠ "--cacheonly" ∧ x ≠ "--setopt=metadata_expire=never" := by
  unfold cmdGpgcheck at hx
  split at hx
  · cases hx
  · simp only [List.mem_singleton] at hx
    subst hx
    exact ⟨by decide, by decide⟩

/-- The repository allow-list block never holds a cache-policy flag. -/
theorem cmdRepositories_no_cache_flags (ctx : Context) (x : String)
    (hx : x ∈ cmdRepositories ctx) :
    x ≠ "--cacheonly" ∧ x ≠ "--setopt=metadata_expire=never" := by
  unfold cmdRepositories at hx
  split at hx
  · cases hx
  · rw [List.mem_map] at hx
    obtain ⟨r, _, rfl⟩ := hx
    by_cases hb : strEndsWith (executable ctx.config) "dnf5" = true
    · rw [if_pos hb]
      exact ⟨append_ne_of_take_ne _ _ _ (by decide), append_ne_of_take_ne _ _ _ (by decide)⟩
    · rw [if_neg hb]
      exact ⟨append_ne_of_take_ne _ _ _ (by decide), append_ne_of_take_ne _ _ _ (by decide)⟩

/-- The cross-architecture block never holds a cache-policy flag. -/
theorem cmdArch_no_cache_flags (ctx : Context) (x : String) (hx : x ∈ cmdArch ctx) :
    x ≠ "--cacheonly" ∧ x ≠ "--setopt=metadata_expire=never" := by
  unfold cmdArch at hx
  split at hx
  · cases hx
  · simp only [List.mem_singleton] at hx
    subst hx
    exact ⟨append_ne_of_take_ne _ _ _ (by decide), append_ne_of_take_ne _ _ _ (by decide)⟩

/-- The docs block never holds a cache-policy flag. -/
theorem cmdDocs_no_cache_flags (ctx : Context) (x : String) (hx : x ∈ cmdDocs ctx) :
    x ≠ "--cacheonly" ∧ x ≠ "--setopt=metadata_expire=never" := by
  unfold cmdDocs at hx
  split at hx
  · cases hx
  · simp only [List.mem_singleton] at hx
    subst hx
    constructor <;> (split <;> decide)

/-- The variant trailer never holds a cache-policy flag. -/
theorem cmdTrailer_no_cache_flags (ctx : Context) (x : String) (hx : x ∈ cmdTrailer ctx) :
    x ≠ "--cacheonly" ∧ x ≠ "--setopt=metadata_expire=never" := by
  unfold cmdTrailer at hx
  split at hx
  all_goals simp only [List.mem_cons, List.not_mem_nil, or_false, List.mem_singleton] at hx
  · subst hx
    exact ⟨by decide, by decide⟩
  · rcases hx with rfl | rfl | rfl
    all_goals exact ⟨by decide, by decide⟩

/-- C5: when the cache policy is always-cached, `cmd` contains the
cache-only flag and not the never-expire flag; for every other policy it
contains the never-expire flag and not the cache-only flag, and for the
next-gen binary additionally the metadata-scoped cache-only option.
Stated for binaries whose resolved name does not begin with a dash. -/
theorem cmd_cache_policy_flags (ctx : Context)
    (hdnf : strStartsWith (executable ctx.config) "-" = false) :
    (ctx.config.cacheonly = Cacheonly.always →
      "--cacheonly" ∈ cmd ctx ∧ "--setopt=metadata_expire=never" ∉ cmd ctx) ∧
    (ctx.config.cacheonly ≠ Cacheonly.always →
      "--setopt=metadata_expire=never" ∈ cmd ctx ∧ "--cacheonly" ∉ cmd ctx ∧
      (executable ctx.config = "dnf5" → "--setopt=cacheonly=metadata" ∈ cmd ctx)) := by
  constructor
  · intro hpol
    have hc : cmdCache ctx = ["--cacheonly"] := by
      unfold cmdCache
      rw [if_pos hpol]
    constructor
    · unfold cmd
      rw [hc]
      simp
    · intro hmem
      unfold cmd at hmem
      simp only [List.mem_append] at hmem
      rcases hmem with ((((((h | h) | h) | h) | h) | h) | h) | h
      · exact (cmdBase_no_cache_flags ctx hdnf _ h).2 rfl
      · exact (cmdDebug_no_cache_flags ctx _ h).2 rfl
      · exact (cmdGpgcheck_no_cache_flags ctx _ h).2 rfl
      · exact (cmdRepositories_no_cache_flags ctx _ h).2 rfl
      · rw [hc] at h
        simp at h
      · exact (cmdArch_no_cache_flags ctx _ h).2 rfl
      · exact (cmdDocs_no_cache_flags ctx _ h).2 rfl
      · exact (cmdTrailer_no_cache_flags ctx _ h).2 rfl
  · intro hpol
    have hc : cmdCache ctx = "--setopt=metadata_expire=never"
        :: (if executable ctx.config = "dnf5" then ["--setopt=cacheonly=metadata"] else []) := by
      unfold cmdCache
      rw [if_neg hpol]
      rfl
    refine ⟨?_, ?_, ?_⟩
    · unfold cmd
      rw [hc]
      simp
    · intro hmem
      unfold cmd at hmem
      simp only [List.mem_append] at hmem
      rcases hmem with ((((((h | h) | h) | h) | h) | h) | h) | h
      · exact (cmdBase_no_cache_flags ctx hdnf _ h).1 rfl
      · exact (cmdDebug_no_cache_flags ctx _ h).1 rfl
      · exact (cmdGpgcheck_no_cache_flags ctx _ h).1 rfl
      · exact (cmdRepositories_no_cache_flags ctx _ h).1 rfl
      · rw [hc] at h
        simp only [List.mem_cons] at h
        rcases h with h | h
        · exact absurd h (by decide)
        · split at h
          · simp only [List.mem_singleton] at h
            exact absurd h (by decide)
          · cases h
      · exact (cmdArch_no_cache_flags ctx _ h).1 rfl
      · exact (cmdDocs_no_cache_flags ctx _ h).1 rfl
      · exact (cmdTrailer_no_cache_flags ctx _ h).1 rfl
    · intro hd5
      unfold cmd
      rw [hc, if_pos hd5]
      simp

/-- Witness for C5 at the sample next-gen context with the default policy. -/
theorem cmd_cache_policy_flags_witness :
    "--setopt=metadata_expire=never" ∈ cmd (sampleContext sampleConfig) ∧
    "--cacheonly" ∉ cmd (sampleContext sampleConfig) ∧
    "--setopt=cacheonly=metadata" ∈ cmd (sampleContext sampleConfig) := by
  have h := (cmd_cache_policy_flags (sampleContext sampleConfig) (by decide)).2 (by decide)
  exact ⟨h.1, h.2.1, h.2.2 (by decide)⟩

end MkosiDnf
